import Mathlib

/-!
Shallow embedding of the `bb` (BlissfulBrides) scraping pipeline from
`src/bb/main.py`, together with proofs about the behaviour its
specification describes.  Network and DOM effects are made explicit:
every HTTP fetch becomes an `Except`/function parameter and every
BeautifulSoup query result becomes a field of an explicit page model.
-/

namespace BB

/-- Python values as they occur in the scraper's record dictionaries:
strings, booleans, ints, `None`, and lists of strings
(`price_list_pdfs` / `price_lists`). -/
inductive PyVal where
  | str (s : String)
  | pbool (b : Bool)
  | pint (n : Int)
  | pnone
  | plist (xs : List String)
deriving DecidableEq, Repr

/-- A Python dict in insertion order (keys are unique as produced by the
scraper; lookups use the first binding). -/
abbrev Record := List (String × PyVal)

/-- `BASE_URL` from `src/bb/main.py`. -/
def BASE_URL : String := "https://www.blissfulbrides.sg"

/-- Python's substring test `pat in s`. -/
def strContains (s pat : String) : Bool := decide (pat.toList <:+: s.toList)

/-- Python `str.split(sep)` (non-empty `sep`), over char lists: leftmost
non-overlapping occurrences, empty segments kept.  The `fuel` argument
(any value at least the list length) makes the recursion structural. -/
def py_split_aux (sep : List Char) : Nat → List Char → List Char →
    List (List Char)
  | 0, acc, _ => [acc.reverse]
  | _ + 1, acc, [] => [acc.reverse]
  | fuel + 1, acc, c :: cs =>
    if (c :: cs).take sep.length = sep then
      acc.reverse :: py_split_aux sep fuel [] ((c :: cs).drop sep.length)
    else
      py_split_aux sep fuel (c :: acc) cs

/-- Python `s.split(sep)` for a non-empty separator. -/
def py_split (s sep : String) : List String :=
  (py_split_aux sep.toList s.toList.length [] s.toList).map
    fun cs => String.mk cs

/-- Python `str.strip()`: remove leading and trailing whitespace. -/
def py_strip (s : String) : String :=
  String.mk
    (((s.toList.dropWhile Char.isWhitespace).reverse.dropWhile
      Char.isWhitespace).reverse)

/-- Python `str.startswith(pre)`. -/
def py_startswith (s pre : String) : Bool :=
  decide (s.toList.take pre.toList.length = pre.toList)

/-- Python `str.lower()`. -/
def py_lower (s : String) : String := String.mk (s.toList.map Char.toLower)

/-- First-occurrence-preserving deduplication, the semantics of Python's
`list(dict.fromkeys(urls))` (auxiliary: `seen` holds keys already kept). -/
def dedupFirstAux [DecidableEq α] : List α → List α → List α
  | _, [] => []
  | seen, x :: xs =>
    if x ∈ seen then dedupFirstAux seen xs
    else x :: dedupFirstAux (x :: seen) xs

/-- `list(dict.fromkeys(l))`: drop every repetition after the first. -/
def dedupFirst [DecidableEq α] (l : List α) : List α := dedupFirstAux [] l

/-- `get_urls_from_sitemap` (src/bb/main.py:37-56), parametrised by the
outcome of the HTTP fetch + XML parse: `.error` when
`httpx.get`/`raise_for_status`/parsing raises (the function catches every
exception and returns `[]`), `.ok locs` with the text of all `<loc>`
entries otherwise.  Keeps the entries containing `url_pattern` as a
substring and deduplicates preserving first-seen order. -/
def get_urls_from_sitemap (fetched : Except String (List String))
    (url_pattern : String) : List String :=
  match fetched with
  | .error _ => []
  | .ok locs => dedupFirst (locs.filter fun l => strContains l url_pattern)

/-- What one `scrape_with_semaphore` task delivers to `asyncio.gather`
(src/bb/main.py:313-319): the scraper raised (caught by
`return_exceptions=True`), returned `None`, or returned a dict. -/
inductive FetchOutcome where
  | raised
  | retNone
  | retDict (r : Record)
deriving DecidableEq, Repr

/-- The collection step of `scrape_items_parallel` (src/bb/main.py:321-325):
exceptions are logged and dropped, and `elif result:` keeps a returned
dict only when it is truthy, i.e. non-empty (`None` is falsy too). -/
def keep_result : FetchOutcome → Option Record
  | .raised => none
  | .retNone => none
  | .retDict [] => none
  | .retDict (kv :: rest) => some (kv :: rest)

/-- `if limit: urls = urls[:limit]` (src/bb/main.py:303-304); `limit=0`
is falsy in Python and leaves the list untouched. -/
def apply_limit (limit : Option Nat) (urls : List String) : List String :=
  match limit with
  | none => urls
  | some n => if n = 0 then urls else urls.take n

/-- `scrape_items_parallel` (src/bb/main.py:297-328), parametrised by the
sitemap fetch outcome and by the per-URL outcome of `scraper_func`.
One task is created per URL after the limit cut; `asyncio.gather` returns
their outcomes in task order; the collection loop filters them.  The
`workers` argument (the semaphore width) bounds in-flight requests only
and does not influence the collected result. -/
def scrape_items_parallel (fetched : Except String (List String))
    (url_pattern : String) (limit : Option Nat)
    (fetch : String → FetchOutcome) (workers : Int) : List Record :=
  let urls := get_urls_from_sitemap fetched url_pattern
  let urls2 := apply_limit limit urls
  let results := urls2.map fetch
  let _ := workers
  results.filterMap keep_result

/-- The URLs for which `scrape_items_parallel` creates a task and hence
invokes `scraper_func` (src/bb/main.py:318): every URL surviving the
limit cut — there is no cache lookup anywhere in the function. -/
def fetch_calls (fetched : Except String (List String)) (url_pattern : String)
    (limit : Option Nat) : List String :=
  apply_limit limit (get_urls_from_sitemap fetched url_pattern)

/-- The final summary print `Successfully scraped {len(items)}/{len(urls)}`
(src/bb/main.py:327): scraped count and total count — no skipped count
exists. -/
def run_summary (fetched : Except String (List String)) (url_pattern : String)
    (limit : Option Nat) (fetch : String → FetchOutcome) (workers : Int) :
    Nat × Nat :=
  ((scrape_items_parallel fetched url_pattern limit fetch workers).length,
    (fetch_calls fetched url_pattern limit).length)

/-- Python `int()` on a rational value: truncation toward zero. -/
def py_int (q : ℚ) : ℤ := if 0 ≤ q then ⌊q⌋ else ⌈q⌉

/-- `workers = max(1, int(1.0 / delay)) if delay > 0 else 10`
(src/bb/main.py:335). -/
def scrape_items_workers (delay : ℚ) : ℤ :=
  if 0 < delay then max 1 (py_int (1 / delay)) else 10

/-- `scrape_items` (src/bb/main.py:331-336): converts `delay` into a
worker count and delegates to `scrape_items_parallel`; no sleep between
dispatches exists anywhere in the pipeline. -/
def scrape_items (fetched : Except String (List String)) (url_pattern : String)
    (limit : Option Nat) (delay : ℚ) (fetch : String → FetchOutcome) :
    List Record :=
  scrape_items_parallel fetched url_pattern limit fetch
    (scrape_items_workers delay)

/-- The records of the non-failing items, written from the spec's words
for claim comparison: every item that neither raised nor returned `None`
contributes its record. -/
def spec_non_failing_records (fetched : Except String (List String))
    (url_pattern : String) (limit : Option Nat)
    (fetch : String → FetchOutcome) : List Record :=
  (fetch_calls fetched url_pattern limit).filterMap fun u =>
    match fetch u with
    | .retDict r => some r
    | _ => none

/-- Sitemap entries for the C1 scenario: two detail URLs, the first of
which has its identifier (42) present in a populated prior-output cache. -/
def c1_urls : List String :=
  ["https://www.blissfulbrides.sg/detail/42/slug-a/",
   "https://www.blissfulbrides.sg/detail/77/slug-b/"]

/-- Ten URLs for the spec's scheduler scenario. -/
def c4_urls : List String :=
  ["u1", "u2", "u3", "u4", "u5", "u6", "u7", "u8", "u9", "u10"]

/-- Scraper for the scheduler scenario: item #4 raises, every other item
returns a one-field record. -/
def c4_fetch : String → FetchOutcome := fun u =>
  if u = "u4" then .raised else .retDict [("url", .str u)]

/-- Scraper that finishes without raising but returns an empty dict. -/
def c4cex_fetch : String → FetchOutcome := fun _ => .retDict []

/-- One match of the Address-label scan (src/bb/main.py:140-148): the
parent tag name of the matched string node (`none` when it has no
parent) and, when the parent has a following sibling, that sibling's tag
name and stripped text. -/
structure AddrCand where
  parentTag : Option String
  sibling : Option (String × String)
deriving DecidableEq, Repr

/-- A fetched venue detail page, modelled as the results of the
BeautifulSoup queries `scrape_venue_detail` performs on it:
`h1`/`titleTag` are the stripped texts of `soup.find("h1")` /
`soup.find("title")`; `metaDescription`/`ogImage` the `content`
attributes of the description / og:image meta tags (`""` when the
attribute is missing); `breadcrumbLinks` the stripped texts of the
anchors inside `ol.breadcrumb`; `anchorHrefs` the `href` values of all
`a[href]` in document order; `addressCands` the Address-regex matches;
`websiteHref` the `href` (`""` when absent) of the first anchor whose
string is exactly `Website` (case-insensitive); `capacityTexts` the raw
string nodes matching `capacity|pax|guests|seating`. -/
structure DetailPage where
  h1 : Option String
  titleTag : Option String
  metaDescription : Option String
  ogImage : Option String
  breadcrumbLinks : Option (List String)
  anchorHrefs : List String
  addressCands : List AddrCand
  websiteHref : Option String
  capacityTexts : List String
deriving Repr

/-- A detail page on which every optional extraction comes up empty. -/
def emptyDetailPage : DetailPage :=
  ⟨none, none, none, none, none, [], [], none, []⟩

/-- `download_pdf` (src/bb/main.py:16-34) over an explicit filesystem
(the list of existing paths) and pdf-fetch outcome: when the destination
already exists the download is skipped and treated as success with no
network call; otherwise one GET happens — on success the file is
written, and any failure is caught and reported as `false`.  Returns
(success, network calls made for this attachment, resulting filesystem). -/
def download_pdf (existing : List String) (fetchPdf : String → Bool)
    (url save_path : String) : Bool × Nat × List String :=
  if save_path ∈ existing then (true, 0, existing)
  else if fetchPdf url then (true, 1, save_path :: existing)
  else (false, 1, existing)

/-- The per-link PDF loop of `scrape_venue_detail`
(src/bb/main.py:116-128): falsy or `"#"` hrefs are skipped, each
remaining link is downloaded to `pdf_dir / filename`, and the pdf URL is
kept exactly when `download_pdf` reports success.  Returns
(`pdf_list`, resulting filesystem). -/
def process_pdf_links (public_url pdf_dir : String) (links : List String)
    (existing : List String) (fetchPdf : String → Bool) :
    List String × List String :=
  match links with
  | [] => ([], existing)
  | l :: ls =>
    if l = "" ∨ l = "#" then
      process_pdf_links public_url pdf_dir ls existing fetchPdf
    else
      let dl := download_pdf existing fetchPdf (public_url ++ l)
        (pdf_dir ++ "/" ++ l)
      let rest := process_pdf_links public_url pdf_dir ls dl.2.2 fetchPdf
      (if dl.1 then (public_url ++ l) :: rest.1 else rest.1, rest.2)

/-- Outcome of lines 67-68 of src/bb/main.py: both ids when the URL has
no `/detail/` segment are `None`; with a `/detail/` segment, the id is
the text up to the next `/` and the slug the following segment —
`split("/")[1]` raises `IndexError` (caught by the enclosing handler,
aborting the record) when that following segment does not exist. -/
inductive ExtractOutcome where
  | raisedIndexError
  | ids (venue_id slug : Option String)
deriving DecidableEq, Repr

/-- `venue_id = url.split("/detail/")[1].split("/")[0] if "/detail/" in
url else None` and the analogous slug line (src/bb/main.py:67-68). -/
def extract_detail_ids (url : String) : ExtractOutcome :=
  if strContains url "/detail/" then
    match (py_split url "/detail/").get? 1 with
    | some rest =>
      match (py_split rest "/").get? 0, (py_split rest "/").get? 1 with
      | some p0, some p1 => .ids (some p0) (some p1)
      | _, _ => .raisedIndexError
    | none => .raisedIndexError
  else .ids none none

/-- A dict entry that is inserted only when the value was extracted. -/
def optField (k : String) (v : Option PyVal) : Record :=
  match v with
  | some x => [(k, x)]
  | none => []

/-- A Python value that may be `None`, as stored in the record. -/
def pyOfOpt (o : Option String) : PyVal :=
  match o with
  | some s => .str s
  | none => .pnone

/-- How Python renders an optional string inside an f-string:
`None` becomes the text `"None"`. -/
def py_f_string (o : Option String) : String :=
  match o with
  | some s => s
  | none => "None"

/-- `f"{BASE_URL}/public/banquet/{slug}/wedding-banquet-price-list/"`
(src/bb/main.py:103). -/
def public_banquet_url (slug : Option String) : String :=
  BASE_URL ++ "/public/banquet/" ++ py_f_string slug
    ++ "/wedding-banquet-price-list/"

/-- `Path(f"data/bb/price-lists/{venue_id}-{slug}")` (src/bb/main.py:114). -/
def pdf_dir_path (venue_id slug : Option String) : String :=
  "data/bb/price-lists/" ++ py_f_string venue_id ++ "-" ++ py_f_string slug

/-- `data["name"]` (src/bb/main.py:76-78): first `h1`, else the document
title, stripped of the site suffix (Python `str.replace` removes every
occurrence). -/
def name_field (page : DetailPage) : Record :=
  optField "name" ((page.h1 <|> page.titleTag).map
    fun t => .str (t.replace " - Blissful Brides Singapore" ""))

/-- `data["description"]` (src/bb/main.py:80-83): present iff the meta
tag exists; `str(content) if content else ""` is the content itself. -/
def desc_field (page : DetailPage) : Record :=
  optField "description" (page.metaDescription.map PyVal.str)

/-- `data["image_url"]` (src/bb/main.py:85-88). -/
def img_field (page : DetailPage) : Record :=
  optField "image_url" (page.ogImage.map PyVal.str)

/-- `data["category"]` (src/bb/main.py:90-94): the text of the second
breadcrumb link, when the breadcrumb exists and has at least two links. -/
def cat_field (page : DetailPage) : Record :=
  optField "category" (match page.breadcrumbLinks with
    | some links => (links.get? 1).map PyVal.str
    | none => none)

/-- `data["phone"]` (src/bb/main.py:96-99): the loop overwrites, so the
last `tel:`-containing href wins, with `tel:` occurrences removed and
whitespace stripped. -/
def phone_field (page : DetailPage) : Record :=
  optField "phone"
    (((page.anchorHrefs.filter fun h => strContains h "tel:").getLast?).map
      fun h => .str (py_strip (h.replace "tel:" "")))

/-- `data["email"]` (src/bb/main.py:100-101): the last href containing
`mailto:` but not `tel:` (the `elif` skips `tel:` hrefs). -/
def email_field (page : DetailPage) : Record :=
  optField "email"
    (((page.anchorHrefs.filter fun h =>
        !(strContains h "tel:") && strContains h "mailto:").getLast?).map
      fun h => .str (py_strip (h.replace "mailto:" "")))

/-- The price-list keys (src/bb/main.py:105-138), parametrised by the
outcome of fetching the public banquet listing page (`.ok` carries the
hrefs of its `.pdf`-ending anchors; `.error` is any exception, caught at
line 136): with links present, `price_list_pdfs` holds the successfully
downloaded pdf URLs and the flag/count derive from it; otherwise only
the default flag and count are inserted. -/
def pdf_fields (venue_id slug : Option String)
    (listingRes : Except String (List String)) (existing : List String)
    (fetchPdf : String → Bool) : Record :=
  match listingRes with
  | .error _ => [("has_price_list", .pbool false), ("price_list_count", .pint 0)]
  | .ok [] => [("has_price_list", .pbool false), ("price_list_count", .pint 0)]
  | .ok (l :: ls) =>
    let pdf_list := (process_pdf_links (public_banquet_url slug)
        (pdf_dir_path venue_id slug) (l :: ls) existing fetchPdf).1
    [("price_list_pdfs", .plist pdf_list),
     ("has_price_list", .pbool (decide (0 < pdf_list.length))),
     ("price_list_count", .pint pdf_list.length)]

/-- `data["address"]` (src/bb/main.py:140-148): the first Address-label
match whose parent is a `dt/label/th/strong/b` and whose next sibling is
a `dd/td/div/p` with non-empty text shorter than 500 characters
containing `singapore` case-insensitively. -/
def find_address (cands : List AddrCand) : Option String :=
  cands.findSome? fun c =>
    match c.parentTag with
    | some pt =>
      if pt ∈ (["dt", "label", "th", "strong", "b"] : List String) then
        match c.sibling with
        | some (st, text) =>
          if st ∈ (["dd", "td", "div", "p"] : List String) ∧ text ≠ ""
              ∧ text.length < 500
              ∧ strContains (py_lower text) "singapore" = true then some text
          else none
        | none => none
      else none
    | none => none

/-- `data["capacity"]` (src/bb/main.py:156-163): the first matched
string whose stripped text is non-empty, shorter than 200 characters and
contains a digit. -/
def find_capacity (texts : List String) : Option String :=
  texts.findSome? fun raw =>
    let t := py_strip raw
    if t ≠ "" ∧ t.length < 200 ∧ t.toList.any Char.isDigit then some t
    else none

/-- `data["address"]` entry. -/
def addr_field (page : DetailPage) : Record :=
  optField "address" ((find_address page.addressCands).map PyVal.str)

/-- `data["website"]` (src/bb/main.py:150-154): the Website anchor's
href, kept only when it starts with `http`. -/
def web_field (page : DetailPage) : Record :=
  optField "website" (match page.websiteHref with
    | some h => if py_startswith h "http" then some (PyVal.str h) else none
    | none => none)

/-- `data["capacity"]` entry. -/
def cap_field (page : DetailPage) : Record :=
  optField "capacity" ((find_capacity page.capacityTexts).map PyVal.str)

/-- The dict built by `scrape_venue_detail` for a successfully fetched
page, keys in the source's insertion order (src/bb/main.py:70-163). -/
def venue_record (page : DetailPage) (url : String)
    (venue_id slug : Option String)
    (listingRes : Except String (List String)) (existing : List String)
    (fetchPdf : String → Bool) : Record :=
  [("id", pyOfOpt venue_id), ("slug", pyOfOpt slug), ("url", .str url)]
    ++ name_field page ++ desc_field page ++ img_field page ++ cat_field page
    ++ phone_field page ++ email_field page
    ++ pdf_fields venue_id slug listingRes existing fetchPdf
    ++ addr_field page ++ web_field page ++ cap_field page

/-- `scrape_venue_detail` (src/bb/main.py:59-169), parametrised by the
outcome of the page fetch, the outcome of the banquet-listing fetch, the
existing attachment files and the per-pdf fetch outcome.  A failed page
load, or the `IndexError` from slug extraction, is caught by the outer
handler and yields `None`; otherwise a best-effort record is returned. -/
def scrape_venue_detail (pageRes : Except String DetailPage) (url : String)
    (listingRes : Except String (List String)) (existing : List String)
    (fetchPdf : String → Bool) : Option Record :=
  match pageRes with
  | .error _ => none
  | .ok page =>
    match extract_detail_ids url with
    | .raisedIndexError => none
    | .ids venue_id slug =>
      some (venue_record page url venue_id slug listingRes existing fetchPdf)

/-- The C9/C5 witness URL. -/
def c9_url : String := "https://www.blissfulbrides.sg/detail/42/slug-a/"

/-- One `td` of a banquet-price table row, as the queries of
`scrape_banquet_prices` (src/bb/main.py:227-287) see it: its stripped
text, the text of an embedded `strong` tag, the text of a
`p[style*=font-size: 18px]` tag, the href of the first anchor whose href
contains `/detail/`, the `value` of the `input#merchant_score` element,
and the hrefs of all anchors (for the price-list column). -/
structure PriceCell where
  text : String
  strong : Option String
  p18 : Option String
  profileHref : Option String
  ratingValue : Option String
  anchorHrefs : List String
deriving Repr

/-- Attempt of the regex `(\d+)\s*-\s*(\d+)` at the head of the list:
greedy digit run, optional whitespace, a dash, optional whitespace,
digit run. -/
def match_range_at (cs : List Char) : Option (String × String) :=
  let d1 := cs.takeWhile Char.isDigit
  if d1.isEmpty then none
  else
    match (cs.dropWhile Char.isDigit).dropWhile Char.isWhitespace with
    | '-' :: rest2 =>
      let d2 := (rest2.dropWhile Char.isWhitespace).takeWhile Char.isDigit
      if d2.isEmpty then none else some (String.mk d1, String.mk d2)
    | _ => none

/-- `re.search(r"(\d+)\s*-\s*(\d+)", s)` (src/bb/main.py:267): the
leftmost match's two digit groups. -/
def search_range : List Char → Option (String × String)
  | [] => none
  | c :: cs =>
    match match_range_at (c :: cs) with
    | some r => some r
    | none => search_range cs

/-- One row of the banquet price table (src/bb/main.py:227-287): rows
with fewer than four cells are skipped; name comes from `strong` else the
18px `p`; `profile_url`/`rating` are inserted when their sources are
truthy; lunch/dinner/tables cell texts are stored whole; the numeric
range adds `tables_min`/`tables_max`; a fifth cell contributes
`price_lists`; the row is kept only when its name is truthy. -/
def parse_vendor_row (tds : List PriceCell) : Option Record :=
  match tds with
  | td0 :: td1 :: td2 :: td3 :: rest =>
    let nameOpt := td0.strong <|> td0.p18
    let nameField : Record :=
      match nameOpt with
      | some s => [("name", .str s)]
      | none => []
    let profileField : Record :=
      match td0.profileHref with
      | some h =>
        if h ≠ "" then
          [("profile_url",
            .str (if py_startswith h "/" then BASE_URL ++ h else h))]
        else []
      | none => []
    let ratingField : Record :=
      match td0.ratingValue with
      | some v => if v ≠ "" then [("rating", .str v)] else []
      | none => []
    let lunchField : Record := [("lunch_price", .str td1.text)]
    let dinnerField : Record := [("dinner_price", .str td2.text)]
    let tablesFields : Record :=
      (match search_range td3.text.toList with
        | some (mn, mx) => [("tables_min", .str mn), ("tables_max", .str mx)]
        | none => []) ++ [("tables_range", .str td3.text)]
    let priceListField : Record :=
      match rest.head? with
      | some td4 =>
        let urls := td4.anchorHrefs.filterMap fun h =>
          let t := py_strip h
          if t ≠ "" ∧ t ≠ "#" then
            some (if py_startswith t "/" then BASE_URL ++ t else t)
          else none
        match urls with
        | [] => []
        | _ :: _ => [("price_lists", .plist urls)]
      | none => []
    match nameOpt with
    | some s =>
      if s = "" then none
      else
        some (nameField ++ profileField ++ ratingField ++ lunchField
          ++ dinnerField ++ tablesFields ++ priceListField)
    | none => none
  | _ => none

/-- `scrape_banquet_prices` (src/bb/main.py:205-294), parametrised by the
fetch/parse outcome: an exception yields `[]`; a page without a table
yields `[]`; otherwise every row is parsed and rows without a truthy
name or enough cells are skipped. -/
def scrape_banquet_prices
    (fetched : Except String (Option (List (List PriceCell)))) :
    List Record :=
  match fetched with
  | .error _ => []
  | .ok none => []
  | .ok (some rows) => rows.filterMap parse_vendor_row

/-- The spec's example pricing row: rating input `4.5`, lunch cell
`$1,200+ (Fri only)`, dinner cell `$1,800+ (Fri only)`, tables cell
`10 - 20 (Fri only)`. -/
def c8_row : List PriceCell :=
  [⟨"Venue X 4.5", some "Venue X", none, some "/detail/99/venue-x/",
      some "4.5", []⟩,
   ⟨"$1,200+ (Fri only)", none, none, none, none, []⟩,
   ⟨"$1,800+ (Fri only)", none, none, none, none, []⟩,
   ⟨"10 - 20 (Fri only)", none, none, none, none, []⟩]

/-- All keys of all records, in order (`for item in data:
all_keys.update(item.keys())`, src/bb/main.py:355-357). -/
def all_record_keys (data : List Record) : List String :=
  (data.map fun r => r.map Prod.fst).join

/-- `keys = sorted(all_keys)` (src/bb/main.py:358): the union of the
keys across all records, without duplicates, sorted. -/
def csv_fieldnames (data : List Record) : List String :=
  List.insertionSort (· ≤ ·) (all_record_keys data).dedup

/-- JSON escaping of one character (`json.dumps` on the string lists the
scraper produces). -/
def json_escape_char (c : Char) : String :=
  if c = '"' then "\\\""
  else if c = '\\' then "\\\\"
  else String.singleton c

/-- `json.dumps` of a string. -/
def json_dumps_str (s : String) : String :=
  "\"" ++ String.join (s.toList.map json_escape_char) ++ "\""

/-- `json.dumps` of a list of strings (default separator `", "`),
modelling src/bb/main.py:367: the whole list becomes one string. -/
def json_dumps_list (xs : List String) : String :=
  "[" ++ String.intercalate ", " (xs.map json_dumps_str) ++ "]"

/-- How `csv.DictWriter.writerow` renders one present value after the
list-to-JSON rewrite (src/bb/main.py:363-368). -/
def csv_cell_string : PyVal → String
  | .str s => s
  | .pbool b => if b then "True" else "False"
  | .pint n => toString n
  | .pnone => ""
  | .plist xs => json_dumps_list xs

/-- One cell of the flattened row for key `k`: `DictWriter` fills a
missing key with its `restval`, the empty string. -/
def csv_cell (r : Record) (k : String) : String :=
  match r.lookup k with
  | none => ""
  | some v => csv_cell_string v

/-- One CSV data row: one cell per field name. -/
def csv_row (keys : List String) (r : Record) : List String :=
  keys.map (csv_cell r)

/-- The tabular part of `save_to_files` (src/bb/main.py:354-368): the
header and one row per record. -/
def save_to_files_csv (data : List Record) : List String × List (List String) :=
  (csv_fieldnames data, data.map (csv_row (csv_fieldnames data)))

/-- Concrete records for the C7 witness: differing key sets and a
list-valued field. -/
def c7_data : List Record :=
  [[("b", .str "x"), ("lst", .plist ["u", "v"])],
   [("a", .pint 3)]]

end BB

namespace BB

theorem mem_dedupFirstAux [DecidableEq α] (l seen : List α) (a : α) :
    a ∈ dedupFirstAux seen l ↔ a ∈ l ∧ a ∉ seen := by
  induction l generalizing seen with
  | nil => simp [dedupFirstAux]
  | cons x xs ih =>
    by_cases hx : x ∈ seen
    · simp only [dedupFirstAux, if_pos hx, ih]
      constructor
      · rintro ⟨h1, h2⟩
        exact ⟨List.mem_cons_of_mem _ h1, h2⟩
      · rintro ⟨h1, h2⟩
        rcases List.mem_cons.mp h1 with he | h1
        · exact absurd (by rw [he]; exact hx) h2
        · exact ⟨h1, h2⟩
    · simp only [dedupFirstAux, if_neg hx]
      constructor
      · intro h
        rcases List.mem_cons.mp h with he | h
        · exact ⟨by rw [he]; exact List.mem_cons_self x xs,
            by rw [he]; exact hx⟩
        · obtain ⟨h1, h2⟩ := (ih (x :: seen)).mp h
          exact ⟨List.mem_cons_of_mem _ h1, List.not_mem_of_not_mem_cons h2⟩
      · rintro ⟨h1, h2⟩
        rcases List.mem_cons.mp h1 with he | h1
        · exact List.mem_cons.mpr (Or.inl he)
        · by_cases hax : a = x
          · exact List.mem_cons.mpr (Or.inl hax)
          · refine List.mem_cons_of_mem _ ((ih (x :: seen)).mpr ⟨h1, ?_⟩)
            intro hs
            rcases List.mem_cons.mp hs with h | h
            · exact hax h
            · exact h2 h

theorem nodup_dedupFirstAux [DecidableEq α] (l seen : List α) :
    (dedupFirstAux seen l).Nodup := by
  induction l generalizing seen with
  | nil => simp [dedupFirstAux]
  | cons x xs ih =>
    by_cases hx : x ∈ seen
    · simpa [dedupFirstAux, if_pos hx] using ih seen
    · simp only [dedupFirstAux, if_neg hx]
      refine List.Nodup.cons ?_ (ih (x :: seen))
      intro hmem
      rcases (mem_dedupFirstAux xs (x :: seen) x).mp hmem with ⟨_, hns⟩
      exact hns (List.mem_cons_self x seen)

theorem dedupFirstAux_sublist [DecidableEq α] (l seen : List α) :
    (dedupFirstAux seen l).Sublist l := by
  induction l generalizing seen with
  | nil => simp [dedupFirstAux]
  | cons x xs ih =>
    by_cases hx : x ∈ seen
    · simpa [dedupFirstAux, if_pos hx] using (ih seen).cons x
    · simpa [dedupFirstAux, if_neg hx] using (ih (x :: seen)).cons₂ x

theorem pairwise_indexOf_dedupFirstAux [DecidableEq α] (l seen : List α) :
    (dedupFirstAux seen l).Pairwise fun a b => l.indexOf a < l.indexOf b := by
  induction l generalizing seen with
  | nil => simp [dedupFirstAux]
  | cons x xs ih =>
    by_cases hx : x ∈ seen
    · simp only [dedupFirstAux, if_pos hx]
      refine List.Pairwise.imp_of_mem ?_ (ih seen)
      intro a b ha hb hlt
      have hax : a ≠ x := fun he =>
        ((mem_dedupFirstAux xs seen a).mp ha).2 (by rw [he]; exact hx)
      have hbx : b ≠ x := fun he =>
        ((mem_dedupFirstAux xs seen b).mp hb).2 (by rw [he]; exact hx)
      rw [List.indexOf_cons_ne _ (fun h => hax h.symm),
        List.indexOf_cons_ne _ (fun h => hbx h.symm)]
      exact Nat.succ_lt_succ hlt
    · simp only [dedupFirstAux, if_neg hx]
      refine List.Pairwise.cons ?_ ?_
      · intro b hb
        have hbx : b ≠ x :=
          List.ne_of_not_mem_cons ((mem_dedupFirstAux xs (x :: seen) b).mp hb).2
        rw [List.indexOf_cons_self, List.indexOf_cons_ne _ (fun h => hbx h.symm)]
        exact Nat.succ_pos _
      · refine List.Pairwise.imp_of_mem ?_ (ih (x :: seen))
        intro a b ha hb hlt
        have hax : a ≠ x :=
          List.ne_of_not_mem_cons ((mem_dedupFirstAux xs (x :: seen) a).mp ha).2
        have hbx : b ≠ x :=
          List.ne_of_not_mem_cons ((mem_dedupFirstAux xs (x :: seen) b).mp hb).2
        rw [List.indexOf_cons_ne _ (fun h => hax h.symm),
          List.indexOf_cons_ne _ (fun h => hbx h.symm)]
        exact Nat.succ_lt_succ hlt

theorem filter_indexOf_lt [DecidableEq α] (p : α → Bool) (l : List α) (a b : α) :
    a ∈ l.filter p → b ∈ l.filter p →
    (l.filter p).indexOf a < (l.filter p).indexOf b →
    l.indexOf a < l.indexOf b := by
  induction l with
  | nil => intro ha; simp at ha
  | cons x xs ih =>
    intro ha hb h
    by_cases hp : p x = true
    · rw [List.filter_cons_of_pos hp] at ha hb h
      by_cases hax : a = x
      · have hbx : b ≠ x := by
          intro he
          rw [hax, List.indexOf_cons_self, he, List.indexOf_cons_self] at h
          exact Nat.lt_irrefl _ h
        rw [hax, List.indexOf_cons_self]
        rw [List.indexOf_cons_ne _ (fun hh => hbx hh.symm)]
        exact Nat.succ_pos _
      · have hbx : b ≠ x := by
          intro he
          rw [he, List.indexOf_cons_self] at h
          exact Nat.not_lt_zero _ h
        rw [List.indexOf_cons_ne _ (fun hh => hax hh.symm),
          List.indexOf_cons_ne _ (fun hh => hbx hh.symm)] at h
        rw [List.indexOf_cons_ne _ (fun hh => hax hh.symm),
          List.indexOf_cons_ne _ (fun hh => hbx hh.symm)]
        have ha2 : a ∈ xs.filter p := by
          rcases List.mem_cons.mp ha with h2 | h2
          · exact absurd h2 hax
          · exact h2
        have hb2 : b ∈ xs.filter p := by
          rcases List.mem_cons.mp hb with h2 | h2
          · exact absurd h2 hbx
          · exact h2
        exact Nat.succ_lt_succ (ih ha2 hb2 (Nat.lt_of_succ_lt_succ h))
    · rw [List.filter_cons_of_neg hp] at ha hb h
      have hax : a ≠ x := by
        intro he
        refine hp ?_
        rw [← he]
        exact List.of_mem_filter ha
      have hbx : b ≠ x := by
        intro he
        refine hp ?_
        rw [← he]
        exact List.of_mem_filter hb
      rw [List.indexOf_cons_ne _ (fun hh => hax hh.symm),
        List.indexOf_cons_ne _ (fun hh => hbx hh.symm)]
      exact Nat.succ_lt_succ (ih ha hb h)

/-- C2: on a successfully fetched sitemap, `get_urls_from_sitemap` returns
exactly the location entries containing the pattern as a substring, with
no duplicates, and listed in the order of their first occurrence among
the sitemap's location entries. -/
theorem c2_sitemap_filter_dedup_order (locs : List String) (url_pattern : String) :
    (get_urls_from_sitemap (.ok locs) url_pattern).Nodup
    ∧ (∀ u, u ∈ get_urls_from_sitemap (.ok locs) url_pattern ↔
        u ∈ locs ∧ strContains u url_pattern = true)
    ∧ (get_urls_from_sitemap (.ok locs) url_pattern).Pairwise
        fun a b => locs.indexOf a < locs.indexOf b := by
  refine ⟨nodup_dedupFirstAux _ _, ?_, ?_⟩
  · intro u
    unfold get_urls_from_sitemap dedupFirst
    rw [mem_dedupFirstAux]
    simp [List.mem_filter]
  · unfold get_urls_from_sitemap dedupFirst
    refine List.Pairwise.imp_of_mem ?_
      (pairwise_indexOf_dedupFirstAux (locs.filter fun l => strContains l url_pattern) [])
    intro a b ha hb hlt
    have ha' := ((mem_dedupFirstAux _ _ a).mp ha).1
    have hb' := ((mem_dedupFirstAux _ _ b).mp hb).1
    exact filter_indexOf_lt _ locs a b ha' hb' hlt

/-- C3 counterexample: a failed sitemap fetch and a successful fetch with
no matching entries produce the identical value `[]`; the caller cannot
distinguish the error case from the empty-result case, and no
`NetworkError`-style outcome exists in the function's result. -/
theorem c3_error_indistinguishable_cex :
    get_urls_from_sitemap (.error "connection timed out") "/detail/"
      = get_urls_from_sitemap
          (.ok ["https://www.blissfulbrides.sg/about/"]) "/detail/"
    ∧ get_urls_from_sitemap (.error "connection timed out") "/detail/" = [] := by
  constructor <;> decide

/-- C3 amended: `get_urls_from_sitemap` swallows every fetch/parse failure
and returns `[]`, exactly the value returned for a sitemap with no
matching entries; the run then proceeds with zero URLs instead of
aborting with a distinguishable error. -/
theorem c3_error_swallowed (e : String) (url_pattern : String) :
    get_urls_from_sitemap (.error e) url_pattern = []
    ∧ get_urls_from_sitemap (.ok []) url_pattern = [] := by
  exact ⟨rfl, rfl⟩

/-- C1 (code bug): `scrape_items_parallel` dispatches `scraper_func` for
every URL surviving the limit cut — including the URL whose identifier
(42) a populated Item Cache holds — because no cache lookup exists in
the function (despite `scrape_items`' docstring advertising caching),
and the run summary counts only scraped/total, with no skipped count. -/
theorem c1_no_cache_short_circuit :
    fetch_calls (.ok c1_urls) "/detail/" none = c1_urls
    ∧ "https://www.blissfulbrides.sg/detail/42/slug-a/"
        ∈ fetch_calls (.ok c1_urls) "/detail/" none := by
  constructor
  · decide
  · decide

theorem map_some_filterMap_sublist (f : α → Option β) (l : List α) :
    ((l.filterMap f).map some).Sublist (l.map f) := by
  induction l with
  | nil => simp
  | cons x xs ih =>
    cases hx : f x with
    | none => simpa [List.filterMap_cons, hx] using ih.cons (f x)
    | some b =>
      simp only [List.filterMap_cons, hx, List.map_cons]
      exact ih.cons₂ (some b)

/-- C10: the result list of `scrape_items_parallel` preserves the relative
order of the dispatched URLs: there is an order embedding (strictly
monotone index map) from result positions into input positions such that
each collected record is exactly the kept outcome of the corresponding
input URL — `asyncio.gather` returns outcomes in task-submission order
and the collection loop only filters. -/
theorem c10_result_preserves_input_order (fetched : Except String (List String))
    (url_pattern : String) (limit : Option Nat)
    (fetch : String → FetchOutcome) (workers : Int) :
    ∃ emb : ℕ ↪o ℕ, ∀ ix : ℕ,
      ((scrape_items_parallel fetched url_pattern limit fetch workers).get? ix).map some
        = ((fetch_calls fetched url_pattern limit).get? (emb ix)).map
            fun u => keep_result (fetch u) := by
  have hitems : scrape_items_parallel fetched url_pattern limit fetch workers
      = (fetch_calls fetched url_pattern limit).filterMap
          fun u => keep_result (fetch u) := by
    simp [scrape_items_parallel, fetch_calls, List.filterMap_map]
    rfl
  have hsub := map_some_filterMap_sublist (fun u => keep_result (fetch u))
    (fetch_calls fetched url_pattern limit)
  obtain ⟨emb, hemb⟩ := List.sublist_iff_exists_orderEmbedding_get?_eq.mp hsub
  refine ⟨emb, fun ix => ?_⟩
  have h := hemb ix
  rw [List.get?_map, List.get?_map] at h
  rw [hitems]
  exact h

/-- C4 counterexample: a `fetch_one` that completes without raising and
without returning null, but whose record is the empty dict, is dropped by
the truthiness test `elif result:` — so the result set does not contain
the records of all non-failing items. -/
theorem c4_truthiness_cex :
    scrape_items_parallel (.ok ["https://www.blissfulbrides.sg/detail/1/a/"])
        "/detail/" none c4cex_fetch 3 = []
    ∧ spec_non_failing_records (.ok ["https://www.blissfulbrides.sg/detail/1/a/"])
        "/detail/" none c4cex_fetch = [[]]
    ∧ ([] : List Record) ≠ [[]] := by
  refine ⟨by decide, by decide, by decide⟩

/-- C4 amended: per-item failures are isolated — the batch always
completes with exactly the records of the non-failing items whose dict is
non-empty (Python truthiness also drops an empty dict); in particular,
over the spec's 10-URL scenario with `concurrency=3` where item #4
raises, the result is exactly the 9 records of the other items. -/
theorem c4_error_isolation_amended (fetched : Except String (List String))
    (url_pattern : String) (limit : Option Nat)
    (fetch : String → FetchOutcome) (workers : Int) :
    scrape_items_parallel fetched url_pattern limit fetch workers
      = (fetch_calls fetched url_pattern limit).filterMap
          (fun u => keep_result (fetch u))
    ∧ (∀ u r, u ∈ fetch_calls fetched url_pattern limit →
        fetch u = .retDict r → r ≠ [] →
        r ∈ scrape_items_parallel fetched url_pattern limit fetch workers)
    ∧ scrape_items_parallel (.ok c4_urls) "" none c4_fetch 3
        = (c4_urls.filter fun u => u ≠ "u4").map
            (fun u => [("url", PyVal.str u)])
    ∧ (scrape_items_parallel (.ok c4_urls) "" none c4_fetch 3).length = 9 := by
  have heq : scrape_items_parallel fetched url_pattern limit fetch workers
      = (fetch_calls fetched url_pattern limit).filterMap
          (fun u => keep_result (fetch u)) := by
    simp [scrape_items_parallel, fetch_calls, List.filterMap_map]
    rfl
  refine ⟨heq, ?_, by decide, by decide⟩
  intro u r hu hr hne
  rw [heq]
  refine List.mem_filterMap.mpr ⟨u, hu, ?_⟩
  rw [hr]
  cases r with
  | nil => exact absurd rfl hne
  | cons kv rest => rfl

/-- C6 counterexample: `scrape_items` with `delay = 0.5` runs the
parallel scheduler with `max(1, int(1/0.5)) = 2` workers, not the
degenerate `concurrency = 1` the claim asserts for every positive delay. -/
theorem c6_delay_not_sequential_cex :
    scrape_items_workers ((1 : ℚ) / 2) = 2 ∧ (2 : ℤ) ≠ 1 := by
  constructor
  · norm_num [scrape_items_workers, py_int]
  · decide

/-- C6 amended: for every positive delay, `scrape_items` performs no
inter-item sleep at all — it delegates to `scrape_items_parallel` with
`max(1, int(1/delay))` workers, which degenerates to concurrency 1
exactly when `delay > 1/2`. -/
theorem c6_delay_to_workers_amended (fetched : Except String (List String))
    (url_pattern : String) (limit : Option Nat)
    (fetch : String → FetchOutcome) (delay : ℚ) (hd : 0 < delay) :
    scrape_items fetched url_pattern limit delay fetch
      = scrape_items_parallel fetched url_pattern limit fetch
          (scrape_items_workers delay)
    ∧ (scrape_items_workers delay = 1 ↔ 1 / 2 < delay) := by
  refine ⟨rfl, ?_⟩
  have hq : (0 : ℚ) ≤ 1 / delay := le_of_lt (by positivity)
  unfold scrape_items_workers py_int
  rw [if_pos hd, if_pos hq]
  constructor
  · intro h
    have h1 : ⌊(1 : ℚ) / delay⌋ ≤ 1 := by
      by_contra hc
      push_neg at hc
      rw [max_eq_right (le_of_lt hc)] at h
      omega
    have h2 : (1 : ℚ) / delay < 2 := by
      by_contra hc
      push_neg at hc
      have := Int.le_floor.mpr (by exact_mod_cast hc : ((2 : ℤ) : ℚ) ≤ 1 / delay)
      omega
    rw [div_lt_iff₀ hd] at h2
    linarith
  · intro h
    have h2 : (1 : ℚ) / delay < 2 := by
      rw [div_lt_iff₀ hd]
      linarith
    have hf : ⌊(1 : ℚ) / delay⌋ < 2 :=
      Int.floor_lt.mpr (by exact_mod_cast h2)
    exact max_eq_left (by omega)

/-- C6 amended, witness at `delay = 1`. -/
theorem c6_delay_to_workers_amended_witness :
    scrape_items (.ok c1_urls) "/detail/" none 1 c4_fetch
      = scrape_items_parallel (.ok c1_urls) "/detail/" none c4_fetch
          (scrape_items_workers 1)
    ∧ (scrape_items_workers 1 = 1 ↔ 1 / 2 < (1 : ℚ)) :=
  c6_delay_to_workers_amended (.ok c1_urls) "/detail/" none c4_fetch 1
    (by norm_num)

theorem mem_optField_key {k : String} {v : Option PyVal} {p : String × PyVal}
    (hp : p ∈ optField k v) : p.1 = k := by
  cases v with
  | none => simp [optField] at hp
  | some x =>
    simp [optField] at hp
    rw [hp]

theorem lookup_append_right (l1 l2 : Record) (k : String)
    (h : ∀ p ∈ l1, p.1 ≠ k) : (l1 ++ l2).lookup k = l2.lookup k := by
  induction l1 with
  | nil => rfl
  | cons p ps ih =>
    obtain ⟨k1, v1⟩ := p
    have hk : (k == k1) = false := by
      refine beq_eq_false_iff_ne.mpr fun he => ?_
      exact h (k1, v1) (List.mem_cons_self _ _) he.symm
    simp only [List.cons_append, List.lookup, hk]
    exact ih fun q hq => h q (List.mem_cons_of_mem _ hq)

theorem strAppend_left_cancel {s a b : String} (h : s ++ a = s ++ b) : a = b := by
  have hd := congrArg String.data h
  rw [String.data_append, String.data_append] at hd
  exact String.ext (List.append_cancel_left hd)

theorem download_pdf_of_exists (existing : List String)
    (fetchPdf : String → Bool) (url save_path : String)
    (h : save_path ∈ existing) :
    download_pdf existing fetchPdf url save_path = (true, 0, existing) := by
  unfold download_pdf
  rw [if_pos h]

theorem download_pdf_fs_mono (existing : List String)
    (fetchPdf : String → Bool) (url save_path : String) :
    ∀ a ∈ existing, a ∈ (download_pdf existing fetchPdf url save_path).2.2 := by
  intro a ha
  unfold download_pdf
  split
  · exact ha
  · split
    · exact List.mem_cons_of_mem _ ha
    · exact ha

theorem download_pdf_dest_mem (existing : List String)
    (fetchPdf : String → Bool) (url save_path : String)
    (h : (download_pdf existing fetchPdf url save_path).1 = true) :
    save_path ∈ (download_pdf existing fetchPdf url save_path).2.2 := by
  unfold download_pdf at h ⊢
  by_cases hin : save_path ∈ existing
  · rw [if_pos hin]
    exact hin
  · rw [if_neg hin] at h ⊢
    by_cases hf : fetchPdf url = true
    · rw [if_pos hf]
      exact List.mem_cons_self _ _
    · rw [if_neg hf] at h
      simp at h

theorem process_pdf_links_fs_mono (public_url pdf_dir : String)
    (links : List String) (fetchPdf : String → Bool) :
    ∀ existing, ∀ a ∈ existing,
      a ∈ (process_pdf_links public_url pdf_dir links existing fetchPdf).2 := by
  induction links with
  | nil =>
    intro existing a ha
    simpa [process_pdf_links] using ha
  | cons l ls ih =>
    intro existing a ha
    by_cases hskip : l = "" ∨ l = "#"
    · simp only [process_pdf_links, if_pos hskip]
      exact ih existing a ha
    · simp only [process_pdf_links, if_neg hskip]
      exact ih _ a (download_pdf_fs_mono existing fetchPdf _ _ a ha)

theorem process_pdf_links_mem_of_exists (public_url pdf_dir : String)
    (links : List String) (fetchPdf : String → Bool) (l : String)
    (h1 : l ≠ "") (h2 : l ≠ "#") :
    ∀ existing, l ∈ links → (pdf_dir ++ "/" ++ l) ∈ existing →
      (public_url ++ l)
        ∈ (process_pdf_links public_url pdf_dir links existing fetchPdf).1 := by
  induction links with
  | nil =>
    intro existing hl
    cases hl
  | cons x ls ih =>
    intro existing hl hex
    by_cases hskip : x = "" ∨ x = "#"
    · simp only [process_pdf_links, if_pos hskip]
      have hlx : l ∈ ls := by
        rcases List.mem_cons.mp hl with he | h
        · exfalso
          rcases hskip with h0 | h0
          · exact h1 (by rw [he, h0])
          · exact h2 (by rw [he, h0])
        · exact h
      exact ih existing hlx hex
    · simp only [process_pdf_links, if_neg hskip]
      by_cases hlx : l = x
      · rw [← hlx]
        rw [download_pdf_of_exists existing fetchPdf (public_url ++ l)
          (pdf_dir ++ "/" ++ l) hex]
        exact List.mem_cons_self _ _
      · have hlx2 : l ∈ ls := by
          rcases List.mem_cons.mp hl with he | h
          · exact absurd he hlx
          · exact h
        have hrec := ih
          (download_pdf existing fetchPdf (public_url ++ x)
            (pdf_dir ++ "/" ++ x)).2.2 hlx2
          (download_pdf_fs_mono existing fetchPdf _ _ _ hex)
        by_cases hok : (download_pdf existing fetchPdf (public_url ++ x)
            (pdf_dir ++ "/" ++ x)).1 = true
        · rw [if_pos hok]
          exact List.mem_cons_of_mem _ hrec
        · rw [if_neg hok]
          exact hrec

theorem process_pdf_links_fst_sub (public_url pdf_dir : String)
    (links : List String) (fetchPdf : String → Bool) (l : String) :
    ∀ existing,
      (public_url ++ l)
          ∈ (process_pdf_links public_url pdf_dir links existing fetchPdf).1 →
      (pdf_dir ++ "/" ++ l)
          ∈ (process_pdf_links public_url pdf_dir links existing fetchPdf).2 := by
  induction links with
  | nil =>
    intro existing h
    simp [process_pdf_links] at h
  | cons x ls ih =>
    intro existing h
    by_cases hskip : x = "" ∨ x = "#"
    · simp only [process_pdf_links, if_pos hskip] at h ⊢
      exact ih existing h
    · simp only [process_pdf_links, if_neg hskip] at h ⊢
      by_cases hok : (download_pdf existing fetchPdf (public_url ++ x)
          (pdf_dir ++ "/" ++ x)).1 = true
      · rw [if_pos hok] at h
        rcases List.mem_cons.mp h with he | hmem
        · have hlx : l = x := strAppend_left_cancel he
          rw [hlx]
          exact process_pdf_links_fs_mono public_url pdf_dir ls fetchPdf _ _
            (download_pdf_dest_mem existing fetchPdf _ _ hok)
        · exact ih _ hmem
      · rw [if_neg hok] at h
        exact ih _ h

theorem venue_record_lookup_late (page : DetailPage) (url : String)
    (venue_id slug : Option String) (listingRes : Except String (List String))
    (existing : List String) (fetchPdf : String → Bool) (k : String)
    (hk1 : k ≠ "id") (hk2 : k ≠ "slug") (hk3 : k ≠ "url") (hk4 : k ≠ "name")
    (hk5 : k ≠ "description") (hk6 : k ≠ "image_url") (hk7 : k ≠ "category")
    (hk8 : k ≠ "phone") (hk9 : k ≠ "email") :
    (venue_record page url venue_id slug listingRes existing fetchPdf).lookup k
      = (pdf_fields venue_id slug listingRes existing fetchPdf
          ++ (addr_field page ++ (web_field page ++ cap_field page))).lookup
            k := by
  have hbase : ∀ p ∈ ([("id", pyOfOpt venue_id), ("slug", pyOfOpt slug),
      ("url", PyVal.str url)] : Record), p.1 ≠ k := by
    intro p hp
    simp only [List.mem_cons, List.not_mem_nil, or_false] at hp
    rcases hp with rfl | rfl | rfl
    · exact fun he => hk1 he.symm
    · exact fun he => hk2 he.symm
    · exact fun he => hk3 he.symm
  have hname : ∀ p ∈ name_field page, p.1 ≠ k := fun p hp => by
    rw [mem_optField_key hp]
    exact hk4.symm
  have hdesc : ∀ p ∈ desc_field page, p.1 ≠ k := fun p hp => by
    rw [mem_optField_key hp]
    exact hk5.symm
  have himg : ∀ p ∈ img_field page, p.1 ≠ k := fun p hp => by
    rw [mem_optField_key hp]
    exact hk6.symm
  have hcat : ∀ p ∈ cat_field page, p.1 ≠ k := fun p hp => by
    rw [mem_optField_key hp]
    exact hk7.symm
  have hphone : ∀ p ∈ phone_field page, p.1 ≠ k := fun p hp => by
    rw [mem_optField_key hp]
    exact hk8.symm
  have hemail : ∀ p ∈ email_field page, p.1 ≠ k := fun p hp => by
    rw [mem_optField_key hp]
    exact hk9.symm
  unfold venue_record
  simp only [List.append_assoc]
  rw [lookup_append_right _ _ k hbase, lookup_append_right _ _ k hname,
    lookup_append_right _ _ k hdesc, lookup_append_right _ _ k himg,
    lookup_append_right _ _ k hcat, lookup_append_right _ _ k hphone,
    lookup_append_right _ _ k hemail]

/-- C5: an attachment whose destination file already exists is skipped —
`download_pdf` reports success with zero network calls and an unchanged
filesystem — and is still counted in the owning record's
`price_list_count` (which then is at least 1); a failed download is
recorded as absence (its URL never enters `pdf_list`), and no attachment
outcome prevents `scrape_venue_detail` from returning a record. -/
theorem c5_attachment_idempotent_counted :
    (∀ (existing : List String) (fetchPdf : String → Bool)
        (url save_path : String), save_path ∈ existing →
      download_pdf existing fetchPdf url save_path = (true, 0, existing))
    ∧ (∀ (page : DetailPage) (url vid slug : String)
        (links existing : List String) (fetchPdf : String → Bool) (l : String),
        extract_detail_ids url = .ids (some vid) (some slug) →
        l ∈ links → l ≠ "" → l ≠ "#" →
        (pdf_dir_path (some vid) (some slug) ++ "/" ++ l) ∈ existing →
        ∃ n : Nat,
          ((scrape_venue_detail (.ok page) url (.ok links) existing
              fetchPdf).bind fun r => r.lookup "price_list_count")
            = some (.pint (n : Int)) ∧ 1 ≤ n)
    ∧ (∀ (public_url pdf_dir : String) (links existing : List String)
        (fetchPdf : String → Bool) (l : String),
        (pdf_dir ++ "/" ++ l)
            ∉ (process_pdf_links public_url pdf_dir links existing fetchPdf).2 →
        (public_url ++ l)
            ∉ (process_pdf_links public_url pdf_dir links existing fetchPdf).1)
    ∧ (∀ (page : DetailPage) (url : String) (venue_id slug : Option String)
        (listingRes : Except String (List String)) (existing : List String)
        (fetchPdf : String → Bool),
        extract_detail_ids url = .ids venue_id slug →
        (scrape_venue_detail (.ok page) url listingRes existing
          fetchPdf).isSome = true) := by
  refine ⟨?_, ?_, ?_, ?_⟩
  · intro existing fetchPdf url save_path h
    exact download_pdf_of_exists existing fetchPdf url save_path h
  · intro page url vid slug links existing fetchPdf l hx hl h1 h2 hex
    cases links with
    | nil => cases hl
    | cons x ls =>
      have hmem := process_pdf_links_mem_of_exists
        (public_banquet_url (some slug)) (pdf_dir_path (some vid) (some slug))
        (x :: ls) fetchPdf l h1 h2 existing hl hex
      refine ⟨(process_pdf_links (public_banquet_url (some slug))
        (pdf_dir_path (some vid) (some slug)) (x :: ls) existing
        fetchPdf).1.length, ?_, ?_⟩
      · unfold scrape_venue_detail
        rw [hx]
        show (venue_record page url (some vid) (some slug) (.ok (x :: ls))
          existing fetchPdf).lookup "price_list_count" = _
        rw [venue_record_lookup_late page url (some vid) (some slug)
          (.ok (x :: ls)) existing fetchPdf "price_list_count"
          (by decide) (by decide) (by decide) (by decide) (by decide)
          (by decide) (by decide) (by decide) (by decide)]
        rfl
      · exact List.length_pos.mpr (List.ne_nil_of_mem hmem)
  · intro public_url pdf_dir links existing fetchPdf l hne hmem
    exact hne (process_pdf_links_fst_sub public_url pdf_dir links fetchPdf l
      existing hmem)
  · intro page url venue_id slug listingRes existing fetchPdf hx
    unfold scrape_venue_detail
    rw [hx]
    rfl

/-- C5 witness: a concrete already-downloaded attachment is skipped with
zero calls, counted in `price_list_count`; a concrete failed download is
absent; the record survives. -/
theorem c5_attachment_idempotent_counted_witness :
    download_pdf ["data/bb/price-lists/42-slug-a/a.pdf"] (fun _ => false)
        "u" "data/bb/price-lists/42-slug-a/a.pdf"
      = (true, 0, ["data/bb/price-lists/42-slug-a/a.pdf"])
    ∧ (∃ n : Nat,
        ((scrape_venue_detail (.ok emptyDetailPage) c9_url (.ok ["a.pdf"])
            ["data/bb/price-lists/42-slug-a/a.pdf"] (fun _ => false)).bind
          fun r => r.lookup "price_list_count")
          = some (.pint (n : Int)) ∧ 1 ≤ n)
    ∧ "P/a.pdf" ∉ (process_pdf_links "P/" "d" ["a.pdf"] [] (fun _ => false)).1
    ∧ (scrape_venue_detail (.ok emptyDetailPage) c9_url (.error "boom") []
        (fun _ => false)).isSome = true := by
  obtain ⟨h1, h2, h3, h4⟩ := c5_attachment_idempotent_counted
  refine ⟨h1 _ _ "u" _ (by decide), ?_, ?_, ?_⟩
  · exact h2 emptyDetailPage c9_url "42" "slug-a" ["a.pdf"]
      ["data/bb/price-lists/42-slug-a/a.pdf"] (fun _ => false) "a.pdf"
      (by decide) (by decide) (by decide) (by decide) (by decide)
  · exact h3 "P/" "d" ["a.pdf"] [] (fun _ => false) "a.pdf" (by decide)
  · exact h4 emptyDetailPage c9_url (some "42") (some "slug-a")
      (.error "boom") [] (fun _ => false) (by decide)

/-- C9: a detail page that loads successfully but lacks every optional
field yields a non-null record holding exactly `id`, `slug`, `url` and
the attachment defaults (`has_price_list=False`, `price_list_count=0`);
every optional key is absent, i.e. reads as null; the same record results
whether the banquet-listing fetch fails or finds no pdf anchors; and a
page that fails to load yields null — the embedding is a total function,
so no exception escapes. -/
theorem c9_minimal_best_effort_record (url vid slug : String)
    (existing : List String) (fetchPdf : String → Bool) (e : String)
    (hx : extract_detail_ids url = .ids (some vid) (some slug)) :
    scrape_venue_detail (.ok emptyDetailPage) url (.error e) existing fetchPdf
        = some [("id", .str vid), ("slug", .str slug), ("url", .str url),
            ("has_price_list", .pbool false), ("price_list_count", .pint 0)]
    ∧ scrape_venue_detail (.ok emptyDetailPage) url (.ok []) existing fetchPdf
        = some [("id", .str vid), ("slug", .str slug), ("url", .str url),
            ("has_price_list", .pbool false), ("price_list_count", .pint 0)]
    ∧ (∀ k, k ∈ ["name", "description", "image_url", "category", "phone",
          "email", "price_list_pdfs", "address", "website", "capacity"] →
        ([("id", PyVal.str vid), ("slug", .str slug), ("url", .str url),
            ("has_price_list", .pbool false),
            ("price_list_count", .pint 0)] : Record).lookup k = none)
    ∧ (∀ listingRes, scrape_venue_detail (.error e) url listingRes existing
        fetchPdf = none) := by
  refine ⟨?_, ?_, ?_, fun listingRes => rfl⟩
  · unfold scrape_venue_detail
    rw [hx]
    simp [venue_record, name_field, desc_field, img_field, cat_field,
      phone_field, email_field, addr_field, web_field, cap_field, optField,
      emptyDetailPage, pdf_fields, find_address, find_capacity, pyOfOpt]
  · unfold scrape_venue_detail
    rw [hx]
    simp [venue_record, name_field, desc_field, img_field, cat_field,
      phone_field, email_field, addr_field, web_field, cap_field, optField,
      emptyDetailPage, pdf_fields, find_address, find_capacity, pyOfOpt]
  · intro k hk
    fin_cases hk <;> rfl

/-- C9 witness at a concrete well-formed detail URL. -/
theorem c9_minimal_best_effort_record_witness :
    scrape_venue_detail (.ok emptyDetailPage) c9_url (.error "boom") []
        (fun _ => false)
      = some [("id", .str "42"), ("slug", .str "slug-a"),
          ("url", .str c9_url), ("has_price_list", .pbool false),
          ("price_list_count", .pint 0)]
    ∧ scrape_venue_detail (.ok emptyDetailPage) c9_url (.ok []) []
        (fun _ => false)
      = some [("id", .str "42"), ("slug", .str "slug-a"),
          ("url", .str c9_url), ("has_price_list", .pbool false),
          ("price_list_count", .pint 0)]
    ∧ (∀ k, k ∈ ["name", "description", "image_url", "category", "phone",
          "email", "price_list_pdfs", "address", "website", "capacity"] →
        ([("id", PyVal.str "42"), ("slug", .str "slug-a"),
            ("url", .str c9_url), ("has_price_list", .pbool false),
            ("price_list_count", .pint 0)] : Record).lookup k = none)
    ∧ (∀ listingRes, scrape_venue_detail (.error "boom") c9_url listingRes []
        (fun _ => false) = none) :=
  c9_minimal_best_effort_record c9_url "42" "slug-a" [] (fun _ => false)
    "boom" (by decide)

/-- C8 counterexample: on the spec's example row the extractor yields no
`lunch_from` (or any split) field at all, keeps the whole cell text —
qualifier included — in `lunch_price` and `tables_range`, and stores the
rating as the raw string, so the claimed outputs
(`lunch_from="$1,200+"`, `tables_range="10 - 20"`, numeric rating) are
false on the code. -/
theorem c8_no_split_cex :
    ((parse_vendor_row c8_row).getD []).lookup "lunch_from" = none
    ∧ ((parse_vendor_row c8_row).getD []).lookup "lunch_days" = none
    ∧ ((parse_vendor_row c8_row).getD []).lookup "dinner_from" = none
    ∧ ((parse_vendor_row c8_row).getD []).lookup "lunch_price"
        = some (.str "$1,200+ (Fri only)")
    ∧ ((parse_vendor_row c8_row).getD []).lookup "tables_range"
        = some (.str "10 - 20 (Fri only)")
    ∧ PyVal.str "10 - 20 (Fri only)" ≠ PyVal.str "10 - 20"
    ∧ ((parse_vendor_row c8_row).getD []).lookup "rating"
        = some (.str "4.5") := by
  refine ⟨by decide, by decide, by decide, by decide, by decide, by decide,
    by decide⟩

/-- C8 amended: the example row yields exactly the name, the absolutised
profile URL, the rating as the raw string `"4.5"` (the key is simply
absent when the input element is missing — there is no 0.0 default), the
full lunch and dinner cell texts in `lunch_price`/`dinner_price`, the
regex-extracted `tables_min="10"`/`tables_max="20"`, and the full cell
text in `tables_range`. -/
theorem c8_pricing_row_fields :
    parse_vendor_row c8_row
      = some [("name", .str "Venue X"),
          ("profile_url",
            .str "https://www.blissfulbrides.sg/detail/99/venue-x/"),
          ("rating", .str "4.5"),
          ("lunch_price", .str "$1,200+ (Fri only)"),
          ("dinner_price", .str "$1,800+ (Fri only)"),
          ("tables_min", .str "10"), ("tables_max", .str "20"),
          ("tables_range", .str "10 - 20 (Fri only)")]
    ∧ parse_vendor_row
        [⟨"NoRating", some "NoRating", none, none, none, []⟩,
         ⟨"a", none, none, none, none, []⟩,
         ⟨"b", none, none, none, none, []⟩,
         ⟨"c", none, none, none, none, []⟩]
      = some [("name", .str "NoRating"), ("lunch_price", .str "a"),
          ("dinner_price", .str "b"), ("tables_range", .str "c")] := by
  constructor
  · decide
  · decide

/-- C7: for every non-empty record list, the CSV header is the sorted,
duplicate-free union of the keys across all records (not just the
first); every record yields exactly one row with one cell per column; a
record missing a key produces the empty cell there; and a list-valued
field is serialised into its single JSON-encoded string cell. -/
theorem c7_tabular_union_sorted (data : List Record) (hne : data ≠ []) :
    List.Sorted (· ≤ ·) (csv_fieldnames data)
    ∧ (csv_fieldnames data).Nodup
    ∧ (∀ k, k ∈ csv_fieldnames data ↔ ∃ r ∈ data, k ∈ r.map Prod.fst)
    ∧ (save_to_files_csv data).2.length = data.length
    ∧ (∀ r ∈ data, (csv_row (csv_fieldnames data) r).length
        = (csv_fieldnames data).length)
    ∧ (∀ r : Record, ∀ k, r.lookup k = none → csv_cell r k = "")
    ∧ (∀ r : Record, ∀ k xs, r.lookup k = some (.plist xs) →
        csv_cell r k = json_dumps_list xs) := by
  have hperm := List.perm_insertionSort (· ≤ ·) (all_record_keys data).dedup
  refine ⟨?_, ?_, ?_, by simp [save_to_files_csv], ?_, ?_, ?_⟩
  · exact List.sorted_insertionSort (· ≤ ·) (all_record_keys data).dedup
  · exact hperm.nodup_iff.mpr (List.nodup_dedup _)
  · intro k
    unfold csv_fieldnames
    rw [hperm.mem_iff, List.mem_dedup]
    unfold all_record_keys
    rw [List.mem_join]
    constructor
    · rintro ⟨s, hs, hks⟩
      obtain ⟨r, hr, rfl⟩ := List.mem_map.mp hs
      exact ⟨r, hr, hks⟩
    · rintro ⟨r, hr, hk⟩
      exact ⟨r.map Prod.fst, List.mem_map_of_mem _ hr, hk⟩
  · intro r _
    simp [csv_row]
  · intro r k h
    simp [csv_cell, h]
  · intro r k xs h
    simp [csv_cell, h, csv_cell_string]

/-- C7 witness on two concrete records with different key sets and one
list-valued field. -/
theorem c7_tabular_union_sorted_witness :
    List.Sorted (· ≤ ·) (csv_fieldnames c7_data)
    ∧ (csv_fieldnames c7_data).Nodup
    ∧ (∀ k, k ∈ csv_fieldnames c7_data ↔ ∃ r ∈ c7_data, k ∈ r.map Prod.fst)
    ∧ (save_to_files_csv c7_data).2.length = c7_data.length
    ∧ (∀ r ∈ c7_data, (csv_row (csv_fieldnames c7_data) r).length
        = (csv_fieldnames c7_data).length)
    ∧ (∀ r : Record, ∀ k, r.lookup k = none → csv_cell r k = "")
    ∧ (∀ r : Record, ∀ k xs, r.lookup k = some (.plist xs) →
        csv_cell r k = json_dumps_list xs) :=
  c7_tabular_union_sorted c7_data (by decide)

end BB
